import Mathlib

/-!
# Verification of the zotero-roam synchronization engine

Shallow embedding of the library-synchronization code of the zotero-roam
repository, and proofs about it:

* the Delta Merger `matchWithCurrentData` (IMPROVEMENT_PLAN.md, §2.2);
* the Tag Indexer `categorizeZoteroTags` (IMPROVEMENT_PLAN.md, §2.1);
* the Transport retry interceptor (`zoteroClient.interceptors.response.use`
  in the population scripts);
* the Paginator `fetchAdditionalData` (IMPROVEMENT_PLAN.md, §2.5);
* the `ErrorCallout` component (src/components/Errors/ErrorCallout.tsx);
* the Sync Coordinator (modelled from the spec; its implementation is not
  among the provided source files).

JavaScript arrays are modelled as `List (Option _)`: `none` is a hole, as
created by an assignment `a[i] = v` with `i > a.length`.  JavaScript `Map`s
are modelled as association lists where `set` conses (so `get`, modelled by
`List.find?`, sees the most recent binding, exactly like `Map.get` after an
overwriting `Map.set`).
-/

namespace ZoteroRoam

/-- A Zotero item as far as the merge code inspects it: the generic type
parameter `T extends { data: { key: string } }` of `matchWithCurrentData`
only guarantees a string `key`; we also carry the `version` field of the
data model so that version-related claims can be stated. -/
structure Item where
  key : String
  version : Nat
  deriving DecidableEq, Repr

/-- The `{ modified?, deleted? }` update object taken by
`matchWithCurrentData` (defaults `modified = []`, `deleted = []` are
inlined). -/
structure Update where
  modified : List Item
  deleted : List String
  deriving DecidableEq, Repr

/-- `Map.get` on an association list: the most recent `set` wins because
`set` conses at the front and `find?` returns the first match. -/
def mapGet (m : List (String × Nat)) (k : String) : Option Nat :=
  (m.find? (fun p => p.1 == k)).map (fun p => p.2)

/-- JavaScript array element assignment `a[i] = v`: in-bounds it replaces,
out of bounds it pads with holes and extends the array. -/
def jsSet (a : List (Option Item)) (i : Nat) (v : Item) : List (Option Item) :=
  if i < a.length then a.set i (some v)
  else a ++ List.replicate (i - a.length) none ++ [some v]

/-- First phase of `matchWithCurrentData`: the `arr.filter` pass that drops
deleted items and records `keyToIndex.set(item.data.key, index)` — note the
source records `index`, the position in the *unfiltered* array `arr`.
The counter `i` is the current position in `arr`; holes are skipped by
`filter` (their index still advances), like in JavaScript. -/
def buildIndexAux (deleted : List String) :
    List (Option Item) → Nat → List (String × Nat) × List Item →
      List (String × Nat) × List Item
  | [], _, acc => acc
  | o :: rest, i, acc =>
    match o with
    | none => buildIndexAux deleted rest (i + 1) acc
    | some item =>
      if deleted.contains item.key then buildIndexAux deleted rest (i + 1) acc
      else buildIndexAux deleted rest (i + 1) ((item.key, i) :: acc.1, acc.2 ++ [item])

/-- The filter-and-index pass of `matchWithCurrentData`, started at index 0
with an empty `keyToIndex` map and an empty `datastore`. -/
def buildIndexPhase (deleted : List String) (arr : List (Option Item)) :
    List (String × Nat) × List Item :=
  buildIndexAux deleted arr 0 ([], [])

/-- Second phase of `matchWithCurrentData`: for each modified item, look its
key up in `keyToIndex`; on a hit assign over the recorded index
(`datastore[existingIndex] = item`), otherwise push at the end. -/
def mergeModified (keyToIndex : List (String × Nat)) (modified : List Item)
    (ds : List (Option Item)) : List (Option Item) :=
  modified.foldl
    (fun ds item =>
      match mapGet keyToIndex item.key with
      | some i => jsSet ds i item
      | none => ds ++ [some item])
    ds

/-- The Delta Merger of IMPROVEMENT_PLAN.md §2.2 (`matchWithCurrentData`):
filter out deleted items while building `keyToIndex`, then merge the
modified items over the filtered datastore. -/
def matchWithCurrentData (update : Update) (arr : List (Option Item)) :
    List (Option Item) :=
  let built := buildIndexPhase update.deleted arr
  mergeModified built.1 update.modified (built.2.map some)

/-- The items actually present in a (possibly sparse) merge result. -/
def presentItems (a : List (Option Item)) : List Item :=
  a.filterMap id

end ZoteroRoam

namespace ZoteroRoam

-- Concrete items used in the scenarios below.
/-- Item A at version 1. -/
def itemA1 : Item := ⟨"A", 1⟩
/-- Item B at version 1. -/
def itemB1 : Item := ⟨"B", 1⟩
/-- Item B at version 2. -/
def itemB2 : Item := ⟨"B", 2⟩
/-- Item C at version 1. -/
def itemC1 : Item := ⟨"C", 1⟩
/-- Item D at version 1. -/
def itemD1 : Item := ⟨"D", 1⟩

/-- The snapshot `{A@v1, B@v1}` of the spec's merge scenario. -/
def snapAB : List (Option Item) := [some itemA1, some itemB1]

/-- The delta `{modified: [B@v2, C@v1], deleted: [A]}` of the spec's merge
scenario. -/
def deltaBC : Update := ⟨[itemB2, itemC1], ["A"]⟩

/-- Delta touching only keys A and B: `{modified: [B@v2], deleted: [A]}`. -/
def deltaD1 : Update := ⟨[itemB2], ["A"]⟩

/-- Delta touching only key D: `{modified: [D@v1], deleted: []}`. -/
def deltaD2 : Update := ⟨[itemD1], []⟩

/-- Reassigns every item's `version` according to its key, leaving the key
unchanged; used to state that the merge takes no account of versions. -/
def bumpVersion (it : Item) : Item := ⟨it.key, it.version + 3⟩

/-- `jsSet` commutes with mapping a function over the array's elements. -/
theorem jsSet_map (f : Item → Item) (a : List (Option Item)) (i : Nat) (v : Item) :
    (jsSet a i v).map (Option.map f) = jsSet (a.map (Option.map f)) i (f v) := by
  simp only [jsSet, List.length_map]
  split
  · simp [List.map_set]
  · simp

/-- The filter-and-index pass of the merge only inspects item keys: applying
a key-preserving function to every item leaves `keyToIndex` unchanged and
maps the filtered datastore. -/
theorem buildIndexAux_map (f : Item → Item) (hf : ∀ it, (f it).key = it.key)
    (deleted : List String) :
    ∀ (arr : List (Option Item)) (i : Nat) (m : List (String × Nat)) (ds : List Item),
      buildIndexAux deleted (arr.map (Option.map f)) i (m, ds.map f) =
        ((buildIndexAux deleted arr i (m, ds)).1,
          (buildIndexAux deleted arr i (m, ds)).2.map f)
  | [], _, _, _ => rfl
  | none :: rest, i, m, ds => by
    simpa [buildIndexAux] using buildIndexAux_map f hf deleted rest (i + 1) m ds
  | some item :: rest, i, m, ds => by
    simp only [List.map_cons, Option.map_some', buildIndexAux, hf]
    split
    · exact buildIndexAux_map f hf deleted rest (i + 1) m ds
    · have h := buildIndexAux_map f hf deleted rest (i + 1)
        ((item.key, i) :: m) (ds ++ [item])
      simpa using h

/-- The modified-items pass of the merge only inspects item keys: applying a
key-preserving function to the modified items and the datastore commutes
with the merge. -/
theorem mergeModified_map (f : Item → Item) (hf : ∀ it, (f it).key = it.key)
    (keyToIndex : List (String × Nat)) :
    ∀ (modified : List Item) (ds : List (Option Item)),
      mergeModified keyToIndex (modified.map f) (ds.map (Option.map f)) =
        (mergeModified keyToIndex modified ds).map (Option.map f)
  | [], _ => rfl
  | item :: rest, ds => by
    simp only [List.map_cons, mergeModified, List.foldl_cons, hf]
    cases hm : mapGet keyToIndex item.key with
    | some i =>
      have h := mergeModified_map f hf keyToIndex rest (jsSet ds i item)
      simpa [mergeModified, jsSet_map] using h
    | none =>
      have h := mergeModified_map f hf keyToIndex rest (ds ++ [some item])
      simpa [mergeModified] using h

end ZoteroRoam

namespace ZoteroRoam

/-- C1: the spec claims `merge(snapshot, delta)` keeps unchanged items in
place, replaces modified ones, appends new ones and excises deletions, so
that snapshot `{A@v1, B@v1}` with delta `{modified: [B@v2, C@v1],
deleted: [A]}` merges to exactly `[B@v2, C@v1]` with no duplicate keys.
The code violates this: `keyToIndex` records each surviving item's position
in the *unfiltered* array, so after A is filtered out, B's recorded index 1
points one past the end of the filtered datastore `[B@v1]`, and the
assignment `datastore[1] = B@v2` appends instead of replacing.  The merge
therefore yields `[B@v1, B@v2, C@v1]`: the stale `B@v1` survives and key B
occurs twice. -/
theorem matchWithCurrentData_spec_example_bug :
    matchWithCurrentData deltaBC snapAB = [some itemB1, some itemB2, some itemC1] ∧
      presentItems (matchWithCurrentData deltaBC snapAB) ≠ [itemB2, itemC1] ∧
      ((presentItems (matchWithCurrentData deltaBC snapAB)).map Item.key).count "B" = 2 := by
  decide

/-- C4: the spec claims merging two deltas that touch disjoint key sets is
order-independent up to item order.  The code violates this through the
same stale-index slip: with snapshot `[A@v1, B@v1]`, `D1 = {modified:
[B@v2], deleted: [A]}` and `D2 = {modified: [D@v1]}` (key sets `{A,B}` and
`{D}` are disjoint), merging D1 then D2 keeps item D, while merging D2 then
D1 overwrites D with `B@v2` (B's stale index points at D's slot), so the
two orders produce different item sets. -/
theorem matchWithCurrentData_not_commutative_on_disjoint :
    ((deltaD1.modified.map Item.key ++ deltaD1.deleted).inter
        (deltaD2.modified.map Item.key ++ deltaD2.deleted) = []) ∧
      itemD1 ∈ presentItems (matchWithCurrentData deltaD2 (matchWithCurrentData deltaD1 snapAB)) ∧
      itemD1 ∉ presentItems (matchWithCurrentData deltaD1 (matchWithCurrentData deltaD2 snapAB)) := by
  decide

/-- C7 counterexample: the claim says `merge(snapshot, delta)` fails with a
`VersionConflict` error and produces no partial merge whenever the delta
was computed against a base more than two generations older than the
snapshot.  `matchWithCurrentData` carries no version or generation
information at all and cannot fail: here a delta computed against
generation 7 (three generations behind a snapshot at generation 10, item
`A@v10`) is merged without any error, producing the merged list
`[A@v11]`. -/
theorem matchWithCurrentData_no_version_conflict_cex :
    matchWithCurrentData ⟨[⟨"A", 11⟩], []⟩ [some ⟨"A", 10⟩] = [some ⟨"A", 11⟩] ∧
      presentItems (matchWithCurrentData ⟨[⟨"A", 11⟩], []⟩ [some ⟨"A", 10⟩]) ≠ [] := by
  decide

/-- C7 (amended): `merge(snapshot, delta)` never fails with `VersionConflict`;
it takes no account of item versions or snapshot generations and merges
unconditionally, even against an arbitrarily stale base.  Formally, the
merge commutes with any key-preserving relabelling of the items — in
particular with any reassignment of every item's version — so no version
check can be part of it. -/
theorem matchWithCurrentData_ignores_versions (f : Item → Item)
    (hf : ∀ it, (f it).key = it.key) (update : Update) (arr : List (Option Item)) :
    matchWithCurrentData ⟨update.modified.map f, update.deleted⟩ (arr.map (Option.map f)) =
      (matchWithCurrentData update arr).map (Option.map f) := by
  simp only [matchWithCurrentData, buildIndexPhase]
  have hb := buildIndexAux_map f hf update.deleted arr 0 [] []
  simp only [List.map_nil] at hb
  rw [hb]
  have hds : ((buildIndexAux update.deleted arr 0 ([], [])).2.map f).map some =
      ((buildIndexAux update.deleted arr 0 ([], [])).2.map some).map (Option.map f) := by
    simp [List.map_map, Function.comp]
  rw [hds, mergeModified_map f hf]

/-- Witness for `matchWithCurrentData_ignores_versions` at the concrete
relabelling `bumpVersion`, the spec-example delta and snapshot. -/
theorem matchWithCurrentData_ignores_versions_witness :
    matchWithCurrentData ⟨deltaBC.modified.map bumpVersion, deltaBC.deleted⟩
        (snapAB.map (Option.map bumpVersion)) =
      (matchWithCurrentData deltaBC snapAB).map (Option.map bumpVersion) :=
  matchWithCurrentData_ignores_versions bumpVersion (fun _ => rfl) deltaBC snapAB

end ZoteroRoam

namespace ZoteroRoam

/-! ## Tag Indexer (`categorizeZoteroTags`, IMPROVEMENT_PLAN.md §2.1)

The entry type `ZTagEntry` has a normalized `token`, a `roam` list and a
`zotero` list of source references.  The source elides the exact payload
pushed onto `zotero` (`output[existingIndex].zotero.push(...)`); we model
one source reference per incoming raw token, namely the raw token itself.
`localeCompare` in the descending pre-sort is modelled as code-point string
order. -/

/-- A tag-index entry: normalized token plus the aggregated source
references. -/
structure ZTagEntry where
  token : String
  roam : List String
  zotero : List String
  deriving DecidableEq, Repr

/-- The state threaded through the tag-categorization loop: the
`tokenIndex` map (token → index in `output`) and the `output` list. -/
structure TagState where
  tokenIndex : List (String × Nat)
  output : List ZTagEntry
  deriving DecidableEq, Repr

/-- The empty state the loop starts from. -/
def initTagState : TagState := ⟨[], []⟩

/-- In-place update of the entry at index `i`
(`output[existingIndex].zotero.push(...)`). -/
def modifyAt : List ZTagEntry → Nat → (ZTagEntry → ZTagEntry) → List ZTagEntry
  | [], _, _ => []
  | e :: rest, 0, g => g e :: rest
  | e :: rest, i + 1, g => e :: modifyAt rest i g

/-- `elem.toLowerCase()`: ASCII case folding, character by character
(structurally recursive equivalent of `String.toLower`). -/
def jsToLower (s : String) : String := ⟨s.data.map Char.toLower⟩

/-- One iteration of the `categorizeZoteroTags` loop: normalize the raw
token, look it up in `tokenIndex`; on a hit push a source reference onto
the existing entry, otherwise record the new index and append a fresh
entry. -/
def processTag (st : TagState) (elem : String) : TagState :=
  let normalizedToken := jsToLower elem
  match mapGet st.tokenIndex normalizedToken with
  | some i =>
    ⟨st.tokenIndex, modifyAt st.output i (fun e => { e with zotero := e.zotero ++ [elem] })⟩
  | none =>
    ⟨(normalizedToken, st.output.length) :: st.tokenIndex,
      st.output ++ [⟨normalizedToken, [], [elem]⟩]⟩

/-- Code-point comparison of character lists, modelling the string order
underlying `localeCompare`. -/
def charListLt : List Char → List Char → Bool
  | [], [] => false
  | [], _ :: _ => true
  | _ :: _, [] => false
  | c :: cs, d :: ds => if c < d then true else if d < c then false else charListLt cs ds

/-- String comparison via code points (structurally recursive equivalent of
`String.lt`), modelling `localeCompare`. -/
def strLt (a b : String) : Bool := charListLt a.data b.data

/-- Descending insertion, modelling one step of
`z_data.sort((a, b) => b.localeCompare(a))` with code-point order. -/
def insertDesc (s : String) : List String → List String
  | [] => [s]
  | t :: rest => if strLt t s then s :: t :: rest else t :: insertDesc s rest

/-- Descending sort, modelling `z_data.sort((a, b) => b.localeCompare(a))`. -/
def sortDesc (l : List String) : List String := l.foldr insertDesc []

/-- The Tag Indexer of IMPROVEMENT_PLAN.md §2.1 (`categorizeZoteroTags`):
sort the raw tokens descending, then fold the indexing loop over them. -/
def categorizeZoteroTags (z_data : List String) : List ZTagEntry :=
  ((sortDesc z_data).foldl processTag initTagState).output

/-- The invariant tying `tokenIndex` to `output`: entry tokens are distinct,
every binding in `tokenIndex` points at the entry carrying its token, and
every entry token is bound in `tokenIndex`. -/
def TagInv (st : TagState) : Prop :=
  (st.output.map ZTagEntry.token).Nodup ∧
    (∀ norm i, mapGet st.tokenIndex norm = some i →
      (st.output.map ZTagEntry.token)[i]? = some norm) ∧
    (∀ tok ∈ st.output.map ZTagEntry.token, mapGet st.tokenIndex tok ≠ none)

/-- `modifyAt` preserves length. -/
theorem modifyAt_length (g : ZTagEntry → ZTagEntry) :
    ∀ (l : List ZTagEntry) (i : Nat), (modifyAt l i g).length = l.length
  | [], _ => rfl
  | _ :: rest, 0 => by simp [modifyAt]
  | _ :: rest, i + 1 => by simp [modifyAt, modifyAt_length g rest i]

/-- `modifyAt` with a token-preserving update leaves the token list
unchanged. -/
theorem modifyAt_map_token (g : ZTagEntry → ZTagEntry)
    (hg : ∀ e, (g e).token = e.token) :
    ∀ (l : List ZTagEntry) (i : Nat),
      (modifyAt l i g).map ZTagEntry.token = l.map ZTagEntry.token
  | [], _ => rfl
  | e :: rest, 0 => by simp [modifyAt, hg]
  | e :: rest, i + 1 => by simp [modifyAt, modifyAt_map_token g hg rest i]

/-- `modifyAt` applies the update exactly at the modified index. -/
theorem modifyAt_getElem?_self (g : ZTagEntry → ZTagEntry) :
    ∀ (l : List ZTagEntry) (i : Nat), (modifyAt l i g)[i]? = (l[i]?).map g
  | [], _ => by simp [modifyAt]
  | e :: rest, 0 => by simp [modifyAt]
  | e :: rest, i + 1 => by simp [modifyAt, modifyAt_getElem?_self g rest i]

/-- `mapGet` on a freshly consed binding. -/
theorem mapGet_cons (k : String) (v : Nat) (m : List (String × Nat)) (tok : String) :
    mapGet ((k, v) :: m) tok = if k == tok then some v else mapGet m tok := by
  simp only [mapGet, List.find?]
  split <;> simp_all

/-- Unfolding of `processTag` when the normalized token is already
indexed. -/
theorem processTag_eq_some {st : TagState} {elem : String} {i : Nat}
    (hm : mapGet st.tokenIndex (jsToLower elem) = some i) :
    processTag st elem =
      ⟨st.tokenIndex,
        modifyAt st.output i (fun e => { e with zotero := e.zotero ++ [elem] })⟩ := by
  simp [processTag, hm]

/-- Unfolding of `processTag` when the normalized token is new. -/
theorem processTag_eq_none {st : TagState} {elem : String}
    (hm : mapGet st.tokenIndex (jsToLower elem) = none) :
    processTag st elem =
      ⟨(jsToLower elem, st.output.length) :: st.tokenIndex,
        st.output ++ [⟨jsToLower elem, [], [elem]⟩]⟩ := by
  simp [processTag, hm]

/-- `processTag` preserves the tag-index invariant. -/
theorem tagInv_processTag {st : TagState} (h : TagInv st) (elem : String) :
    TagInv (processTag st elem) := by
  obtain ⟨hnodup, hpoint, hbound⟩ := h
  cases hm : mapGet st.tokenIndex (jsToLower elem) with
  | some i =>
    rw [processTag_eq_some hm]
    have hmt := modifyAt_map_token (fun e => { e with zotero := e.zotero ++ [elem] })
      (fun e => rfl) st.output i
    refine ⟨?_, ?_, ?_⟩
    · rw [hmt]; exact hnodup
    · intro norm j hj
      rw [hmt]; exact hpoint norm j hj
    · intro tok htok
      rw [hmt] at htok
      exact hbound tok htok
  | none =>
    rw [processTag_eq_none hm]
    have hnotmem : jsToLower elem ∉ st.output.map ZTagEntry.token := by
      intro hmem
      exact hbound _ hmem hm
    refine ⟨?_, ?_, ?_⟩
    · simp only [List.map_append, List.map_cons, List.map_nil]
      rw [List.nodup_append]
      exact ⟨hnodup, List.nodup_singleton _,
        by simpa [List.disjoint_singleton] using hnotmem⟩
    · intro norm j hj
      rw [mapGet_cons] at hj
      by_cases hcase : jsToLower elem = norm
      · subst hcase
        simp only [beq_self_eq_true, if_pos] at hj
        obtain rfl : st.output.length = j := by simpa using hj
        have hcat := List.getElem?_concat_length (st.output.map ZTagEntry.token) (jsToLower elem)
        simp only [List.length_map] at hcat
        simp only [List.map_append, List.map_cons, List.map_nil]
        exact hcat
      · have hj' : mapGet st.tokenIndex norm = some j := by
          simpa [hcase] using hj
        have hpt := hpoint norm j hj'
        have hlt : j < (st.output.map ZTagEntry.token).length := by
          by_contra hge
          rw [List.getElem?_eq_none (Nat.le_of_not_lt hge)] at hpt
          exact Option.noConfusion hpt
        simp only [List.map_append, List.map_cons, List.map_nil]
        rw [List.getElem?_append_left (by simpa using hlt)]
        exact hpt
    · intro tok htok
      simp only [List.map_append, List.map_cons, List.map_nil, List.mem_append,
        List.mem_singleton] at htok
      rw [mapGet_cons]
      rcases htok with htok | rfl
      · by_cases hcase : jsToLower elem = tok
        · simp [hcase]
        · simpa [hcase] using hbound tok htok
      · simp

/-- The empty state satisfies the invariant. -/
theorem tagInv_init : TagInv initTagState := by
  refine ⟨List.nodup_nil, ?_, ?_⟩
  · intro norm i h
    simp [initTagState, mapGet] at h
  · intro tok h
    simp [initTagState] at h

/-- Every state reached by folding `processTag` satisfies the invariant. -/
theorem tagInv_foldl :
    ∀ (xs : List String) (st : TagState), TagInv st → TagInv (xs.foldl processTag st)
  | [], _, h => h
  | x :: rest, st, h => tagInv_foldl rest (processTag st x) (tagInv_processTag h x)

end ZoteroRoam

namespace ZoteroRoam

/-- C3: on the token sequence `["AI", "ai", "ML"]` the Tag Indexer produces
exactly two entries — one for the normalized token `"ai"` aggregating two
source references, one for `"ml"` aggregating one.  (The code pre-sorts
descending, so the `"ai"` entry is created first and collects the raw
variants `"ai"` and `"AI"`.) -/
theorem categorizeZoteroTags_example :
    categorizeZoteroTags ["AI", "ai", "ML"] =
        [⟨"ai", [], ["ai", "AI"]⟩, ⟨"ml", [], ["ML"]⟩] ∧
      (categorizeZoteroTags ["AI", "ai", "ML"]).length = 2 ∧
      (categorizeZoteroTags ["AI", "ai", "ML"]).map
          (fun e => (e.token, e.zotero.length)) = [("ai", 2), ("ml", 1)] := by
  decide

/-- C5: Tag Indexer merging is idempotent per token.  In any state reached
by indexing a token list, merging a further token `t` whose case-folded
form already has an entry appends one source reference to that entry,
keeps the entry count unchanged, and leaves exactly one entry for the
normalized token — never two. -/
theorem processTag_idempotent (xs : List String) (t : String)
    (hmem : jsToLower t ∈ ((xs.foldl processTag initTagState).output.map ZTagEntry.token)) :
    (processTag (xs.foldl processTag initTagState) t).output.length =
        (xs.foldl processTag initTagState).output.length ∧
      ((processTag (xs.foldl processTag initTagState) t).output.map
          ZTagEntry.token).count (jsToLower t) = 1 ∧
      ∃ (i : Nat) (e : ZTagEntry), (xs.foldl processTag initTagState).output[i]? = some e ∧
        e.token = jsToLower t ∧
        (processTag (xs.foldl processTag initTagState) t).output[i]? =
          some { e with zotero := e.zotero ++ [t] } := by
  obtain ⟨hnodup, hpoint, hbound⟩ := tagInv_foldl xs initTagState tagInv_init
  set st := xs.foldl processTag initTagState with hst
  obtain ⟨i, hi⟩ : ∃ i, mapGet st.tokenIndex (jsToLower t) = some i := by
    cases h : mapGet st.tokenIndex (jsToLower t) with
    | none => exact absurd h (hbound _ hmem)
    | some v => exact ⟨v, rfl⟩
  rw [processTag_eq_some hi]
  have hmt := modifyAt_map_token (fun e => { e with zotero := e.zotero ++ [t] })
    (fun e => rfl) st.output i
  have hpt := hpoint _ _ hi
  have hlt : i < st.output.length := by
    by_contra hge
    rw [List.getElem?_eq_none (by simpa using Nat.le_of_not_lt hge)] at hpt
    exact Option.noConfusion hpt
  refine ⟨by simp [modifyAt_length], ?_, ?_⟩
  · rw [hmt]
    exact List.count_eq_one_of_mem hnodup hmem
  · refine ⟨i, st.output[i], List.getElem?_eq_getElem hlt, ?_, ?_⟩
    · rw [List.getElem?_map, List.getElem?_eq_getElem hlt] at hpt
      simpa using hpt
    · rw [modifyAt_getElem?_self, List.getElem?_eq_getElem hlt]
      rfl

/-- Witness for `processTag_idempotent`: after indexing `["AI"]`, merging
the token `"ai"` (same case-folded form) keeps a single `"ai"` entry and
appends the reference. -/
theorem processTag_idempotent_witness :
    (processTag (["AI"].foldl processTag initTagState) "ai").output.length =
        (["AI"].foldl processTag initTagState).output.length ∧
      ((processTag (["AI"].foldl processTag initTagState) "ai").output.map
          ZTagEntry.token).count (jsToLower "ai") = 1 ∧
      ∃ (i : Nat) (e : ZTagEntry), (["AI"].foldl processTag initTagState).output[i]? = some e ∧
        e.token = jsToLower "ai" ∧
        (processTag (["AI"].foldl processTag initTagState) "ai").output[i]? =
          some { e with zotero := e.zotero ++ ["ai"] } :=
  processTag_idempotent ["AI"] "ai" (by decide)

end ZoteroRoam

namespace ZoteroRoam

/-! ## Transport retry interceptor

Embeds `zoteroClient.interceptors.response.use` from the population
scripts: on a response error carrying an HTTP response with status 429 or
≥ 500, wait `retry-after` (or `backoff`, or 5) seconds and re-issue the
identical request; otherwise reject.  An execution is driven by the finite
list of outcomes the server produces for the successive issues of the
request; header values are modelled as already-parsed second counts
(`Number(headers[...])`), with `none` for an absent header (- the only
falsy header string is the empty one, which we also model as absent). -/

/-- The headers of an error response, as far as the interceptor reads
them. -/
structure HttpHeaders where
  retryAfterHeader : Option Nat
  backoffHeader : Option Nat
  deriving DecidableEq, Repr

/-- `error.response`: HTTP status plus headers. -/
structure ErrResponse where
  status : Nat
  headers : HttpHeaders
  deriving DecidableEq, Repr

/-- One outcome the server produces for one issue of the request: a
successful response, or an error with `error.response` either present or
absent (network failure). -/
inductive Outcome (α : Type) where
  | ok (resp : α)
  | err (response : Option ErrResponse)
  deriving DecidableEq, Repr

/-- `headers['retry-after'] || headers['backoff'] || 5`: the wait hint in
seconds, defaulting to 5 when neither header is present. -/
def waitHint (h : HttpHeaders) : Nat :=
  h.retryAfterHeader.getD (h.backoffHeader.getD 5)

/-- The result of running the interceptor-wrapped request against a finite
outcome list: the value delivered to the caller (`none` if the outcome
list was exhausted while still retrying), the total seconds spent
suspended, and the number of times the request was issued. -/
structure TransportRun (α : Type) where
  result : Option (Except (Option ErrResponse) α)
  waitedSeconds : Nat
  requestsIssued : Nat
  deriving Repr

/-- The interceptor of the population scripts, run against the successive
outcomes: a success resolves; an error with a 429 or 5xx response waits
`waitHint` seconds and re-issues the request (consuming the next outcome);
any other error is rejected to the caller at once. -/
def runTransport {α : Type} : List (Outcome α) → TransportRun α
  | [] => ⟨none, 0, 0⟩
  | .ok resp :: _ => ⟨some (.ok resp), 0, 1⟩
  | .err none :: _ => ⟨some (.error none), 0, 1⟩
  | .err (some resp) :: rest =>
    if resp.status == 429 || resp.status ≥ 500 then
      let t := runTransport rest
      ⟨t.result, waitHint resp.headers + t.waitedSeconds, t.requestsIssued + 1⟩
    else ⟨some (.error (some resp)), 0, 1⟩

/-- The 429 response with `retry-after: 2` of the spec's scenario. -/
def rateLimited2 : ErrResponse := ⟨429, ⟨some 2, none⟩⟩

/-- C2: on a 429 or 5xx response the Transport reads the wait hint from
`retry-after` or `backoff` (5 seconds when both are absent), suspends for
that many seconds and re-issues the identical request, so the run's result
is the run over the remaining outcomes; in particular a 429 with
`retry-after: 2` followed by a success resolves to that success after 2
seconds, with the request issued twice and no error surfaced. -/
theorem runTransport_retries_on_429_and_5xx {α : Type} (resp : ErrResponse)
    (rest : List (Outcome α)) (hs : resp.status = 429 ∨ 500 ≤ resp.status) :
    runTransport (.err (some resp) :: rest) =
        ⟨(runTransport rest).result,
          waitHint resp.headers + (runTransport rest).waitedSeconds,
          (runTransport rest).requestsIssued + 1⟩ ∧
      (resp.headers.retryAfterHeader = none → resp.headers.backoffHeader = none →
        waitHint resp.headers = 5) ∧
      ∀ v : α, runTransport [.err (some rateLimited2), .ok v] =
        ⟨some (.ok v), 2, 2⟩ := by
  refine ⟨?_, ?_, fun v => rfl⟩
  · have hcond : (resp.status == 429 || resp.status ≥ 500) = true := by
      rcases hs with h | h
      · simp [h]
      · simp [h, Nat.le_of_lt]
    simp [runTransport, hcond]
  · intro h1 h2
    simp [waitHint, h1, h2]

/-- Witness for `runTransport_retries_on_429_and_5xx`: a 503 with a
`backoff: 1` header followed by a success. -/
theorem runTransport_retries_witness :
    runTransport (α := Nat) [.err (some ⟨503, ⟨none, some 1⟩⟩), .ok 7] =
        ⟨(runTransport (α := Nat) [.ok 7]).result,
          waitHint ⟨none, some 1⟩ + (runTransport (α := Nat) [.ok 7]).waitedSeconds,
          (runTransport (α := Nat) [.ok 7]).requestsIssued + 1⟩ ∧
      ((⟨none, some 1⟩ : HttpHeaders).retryAfterHeader = none →
        (⟨none, some 1⟩ : HttpHeaders).backoffHeader = none →
        waitHint ⟨none, some 1⟩ = 5) ∧
      ∀ v : Nat, runTransport [.err (some rateLimited2), .ok v] = ⟨some (.ok v), 2, 2⟩ :=
  runTransport_retries_on_429_and_5xx ⟨503, ⟨none, some 1⟩⟩ [.ok 7] (Or.inr (by decide))

/-- C6: a client error (4xx other than 429) or a network failure with no
HTTP response is propagated to the caller immediately: no wait, no
re-issue (the request is issued exactly once), and the caller receives the
error itself. -/
theorem runTransport_propagates_client_errors {α : Type} (e : Option ErrResponse)
    (rest : List (Outcome α))
    (he : e = none ∨ ∃ resp, e = some resp ∧ 400 ≤ resp.status ∧ resp.status < 500 ∧
      resp.status ≠ 429) :
    runTransport (.err e :: rest) = ⟨some (.error e), 0, 1⟩ := by
  rcases he with rfl | ⟨resp, rfl, h4, h5, hne⟩
  · rfl
  · have hcond : (resp.status == 429 || resp.status ≥ 500) = false := by
      simp [hne, Nat.not_le.mpr h5]
    simp [runTransport, hcond]

/-- Witness for `runTransport_propagates_client_errors`: a 404 error is
rejected at once even with retryable outcomes queued behind it. -/
theorem runTransport_propagates_witness :
    runTransport (α := Nat) [.err (some ⟨404, ⟨none, none⟩⟩), .ok 7] =
      ⟨some (.error (some ⟨404, ⟨none, none⟩⟩)), 0, 1⟩ :=
  runTransport_propagates_client_errors (some ⟨404, ⟨none, none⟩⟩) [.ok 7]
    (Or.inr ⟨⟨404, ⟨none, none⟩⟩, rfl, by decide, by decide, by decide⟩)

end ZoteroRoam

namespace ZoteroRoam

/-! ## Paginator (`fetchAdditionalData`, IMPROVEMENT_PLAN.md §2.5)

The extra page calls are issued in consecutive batches of at most
`CONCURRENCY_LIMIT = 5`; each batch is `await`ed with `Promise.all`, whose
output is in the positional (page) order of the batch, not in settlement
order.  We model page `j`'s payload as `page j`, the batching of the loop
as `chunk5` over `List.range nbExtraCalls`, and the nondeterministic
settlement of one batch as a permutation `σ` of the batch: the settled
pairs arrive as `σ.map (fun j => (j, page j))` and `Promise.all` fills
slot `j` with the settled value for promise `j`. -/

/-- The batches of the outer loop `for (i = 0; i < nbExtraCalls; i += 5)`:
consecutive chunks of at most 5 page indices. -/
def chunk5 {β : Type} : List β → List (List β)
  | [] => []
  | x :: xs => (x :: xs).take 5 :: chunk5 ((x :: xs).drop 5)
  termination_by l => l.length
  decreasing_by simp [List.length_drop]; omega

/-- `Promise.all`: given the settled `(promise index, value)` pairs in
arrival order, produce the results in the positional order of the batch. -/
def promiseAll {β : Type} (settled : List (Nat × β)) (order : List Nat) :
    List (Option β) :=
  order.map (fun j => (settled.find? (fun q => q.1 == j)).map (fun q => q.2))

/-- `fetchAdditionalData` run under a settlement schedule: for each batch,
the pages settle in the order given by the corresponding entry of `sched`;
`Promise.all` reassembles them in page order, and each batch's payloads
are flattened and appended to `results`. -/
def fetchAdditionalData {α : Type} (page : Nat → List α) (nbExtraCalls : Nat)
    (sched : List (List Nat)) : List α :=
  ((chunk5 (List.range nbExtraCalls)).zip sched).foldl
    (fun results pb =>
      results ++
        ((promiseAll (pb.2.map (fun j => (j, page j))) pb.1).filterMap id).flatten)
    []

/-- `find?` over settled pairs built from a settlement order: promise `j`'s
pair is found exactly when `j` settled, and always carries `page j`. -/
theorem find?_settled {α : Type} (page : Nat → List α) (j : Nat) :
    ∀ σ : List Nat,
      (σ.map (fun i => (i, page i))).find? (fun q => q.1 == j) =
        if j ∈ σ then some (j, page j) else none
  | [] => by simp
  | i :: σ => by
    by_cases h : i = j
    · subst h
      simp [List.find?]
    · have hrec := find?_settled page j σ
      simp only [List.map_cons, List.find?, List.mem_cons]
      have hne : (i == j) = false := by simp [h]
      simp [hne, hrec, (Ne.symm h : j ≠ i)]

/-- Reassembling a batch whose settlement order is a permutation of the
batch recovers every page's payload, in page order. -/
theorem promiseAll_of_perm {α : Type} (page : Nat → List α) (b σ : List Nat)
    (h : σ.Perm b) :
    promiseAll (σ.map (fun i => (i, page i))) b = b.map (fun j => some (page j)) := by
  unfold promiseAll
  apply List.map_congr_left
  intro j hj
  rw [find?_settled page j σ, if_pos ((h.mem_iff).mpr hj)]
  rfl

/-- Appending through a left fold is flattening. -/
theorem foldl_append_eq_flatten {α β : Type} (g : β → List α) :
    ∀ (xs : List β) (acc : List α),
      xs.foldl (fun r x => r ++ g x) acc = acc ++ (xs.map g).flatten
  | [], acc => by simp
  | x :: xs, acc => by
    simp only [List.foldl_cons, List.map_cons, List.flatten_cons]
    rw [foldl_append_eq_flatten g xs (acc ++ g x), List.append_assoc]

/-- The batches partition the index list: flattening them recovers it. -/
theorem chunk5_flatten {β : Type} : ∀ l : List β, (chunk5 l).flatten = l
  | [] => by simp [chunk5]
  | x :: xs => by
    rw [chunk5]
    simp only [List.flatten_cons]
    rw [chunk5_flatten ((x :: xs).drop 5), List.take_append_drop]
  termination_by l => l.length
  decreasing_by simp [List.length_drop]; omega

/-- Every batch holds at most 5 page indices. -/
theorem chunk5_length_le {β : Type} : ∀ l : List β, ∀ c ∈ chunk5 l, c.length ≤ 5
  | [] => by intro c hc; simp [chunk5] at hc
  | x :: xs => by
    intro c hc
    rw [chunk5] at hc
    rcases List.mem_cons.mp hc with rfl | hc
    · simp only [List.length_take]
      exact Nat.min_le_left 5 (x :: xs).length
    · exact chunk5_length_le ((x :: xs).drop 5) c hc
  termination_by l => l.length
  decreasing_by simp [List.length_drop]; omega

/-- Flattening batchwise equals flattening the partition. -/
theorem flatten_map_flatten {α β : Type} (g : β → List α) :
    ∀ xs : List (List β),
      (xs.map (fun b => (b.map g).flatten)).flatten = (xs.flatten.map g).flatten
  | [] => rfl
  | b :: xs => by
    simp [flatten_map_flatten g xs]

/-- C8: under any settlement schedule that settles each batch's pages in
some order (a permutation of the batch), `fetchAdditionalData` returns the
concatenation of the page payloads in page order — the output does not
depend on arrival order — and every batch keeps at most 5 requests in
flight. -/
theorem fetchAdditionalData_ordered {α : Type} (page : Nat → List α)
    (nbExtraCalls : Nat) (sched : List (List Nat))
    (hlen : sched.length = (chunk5 (List.range nbExtraCalls)).length)
    (hperm : ∀ p ∈ (chunk5 (List.range nbExtraCalls)).zip sched, p.2.Perm p.1) :
    fetchAdditionalData page nbExtraCalls sched =
        ((List.range nbExtraCalls).map page).flatten ∧
      ∀ b ∈ chunk5 (List.range nbExtraCalls), b.length ≤ 5 := by
  refine ⟨?_, chunk5_length_le _⟩
  unfold fetchAdditionalData
  rw [foldl_append_eq_flatten]
  have hmap :
      ((chunk5 (List.range nbExtraCalls)).zip sched).map
          (fun pb =>
            ((promiseAll (pb.2.map (fun j => (j, page j))) pb.1).filterMap id).flatten) =
        ((chunk5 (List.range nbExtraCalls)).zip sched).map
          (fun pb => (pb.1.map page).flatten) := by
    apply List.map_congr_left
    intro pb hpb
    rw [promiseAll_of_perm page pb.1 pb.2 (hperm pb hpb)]
    congr 1
    rw [List.filterMap_map]
    have hco : (id ∘ fun j => some (page j)) = some ∘ page := rfl
    rw [hco, List.filterMap_eq_map]
  rw [hmap]
  have hfst :
      ((chunk5 (List.range nbExtraCalls)).zip sched).map
          (fun pb => (pb.1.map page).flatten) =
        (chunk5 (List.range nbExtraCalls)).map (fun b => (b.map page).flatten) := by
    have := List.map_fst_zip (chunk5 (List.range nbExtraCalls)) sched (le_of_eq hlen.symm)
    calc ((chunk5 (List.range nbExtraCalls)).zip sched).map
          (fun pb => (pb.1.map page).flatten)
        = (((chunk5 (List.range nbExtraCalls)).zip sched).map Prod.fst).map
            (fun b => (b.map page).flatten) := by
          rw [List.map_map]; rfl
      _ = (chunk5 (List.range nbExtraCalls)).map (fun b => (b.map page).flatten) := by
          rw [this]
  rw [hfst, flatten_map_flatten, chunk5_flatten]
  simp

end ZoteroRoam

namespace ZoteroRoam

/-- Evaluation of the batching for 7 extra calls: two batches, `[0..4]` and
`[5, 6]`. -/
theorem chunk5_range7 : chunk5 (List.range 7) = [[0, 1, 2, 3, 4], [5, 6]] := by
  have h1 : List.range 7 = [0, 1, 2, 3, 4, 5, 6] := by decide
  rw [h1]
  simp [chunk5]

/-- Witness for `fetchAdditionalData_ordered`: 7 extra calls with pages
settling out of order (`3,0,1,2,4` then `6,5`) still yield the page-order
concatenation, in batches of at most 5. -/
theorem fetchAdditionalData_ordered_witness :
    fetchAdditionalData (fun j => [j]) 7 [[3, 0, 1, 2, 4], [6, 5]] =
        ((List.range 7).map (fun j => [j])).flatten ∧
      ∀ b ∈ chunk5 (List.range 7), b.length ≤ 5 :=
  fetchAdditionalData_ordered (fun j => [j]) 7 [[3, 0, 1, 2, 4], [6, 5]]
    (by rw [chunk5_range7]; rfl)
    (by rw [chunk5_range7]; decide)

end ZoteroRoam

namespace ZoteroRoam

/-! ## Sync Coordinator (modelled from the spec)

The Sync Coordinator's implementation is not among the provided source
files; it is modelled from the spec (§4.6, §5): per LibraryIdentity the
Coordinator keeps an in-flight table; `requestSync` first runs a
synchronous prefix — check the table and either join the in-flight cycle
or register a new one and start a fetch — and only then suspends.  The
host is single-threaded and operations interleave only at suspension
points, so this prefix is atomic.  Fetch cycles are numbered tickets; the
Snapshot a cycle resolves to is a function of its ticket. -/

/-- Modelled from the spec: the Coordinator's per-identity state — the
ticket of the in-flight sync cycle (if any) and the number of fetch cycles
started so far (the fetch-count instrumentation hook of §8). -/
structure CoordState where
  pending : Option Nat
  fetchCount : Nat
  deriving DecidableEq, Repr

/-- Modelled from the spec: the atomic synchronous prefix of
`requestSync(id)`.  If a cycle is in flight, join it (return its ticket
without starting a fetch); otherwise register a new cycle, count one
Paginator fetch, and return the new ticket. -/
def requestSyncStart (st : CoordState) : CoordState × Nat :=
  match st.pending with
  | some ticket => (st, ticket)
  | none => (⟨some st.fetchCount, st.fetchCount + 1⟩, st.fetchCount)

/-- C9 (spec-modelled): two `requestSync(id)` calls issued concurrently
while no sync for `id` is complete — i.e. their atomic prefixes run one
after the other from an idle state, in either order since the two callers
are symmetric — start exactly one Paginator fetch cycle, and both calls
hold the same ticket, hence resolve to the same Snapshot whatever the
fetch produces. -/
theorem requestSync_at_most_one_in_flight (n : Nat) :
    ((requestSyncStart (requestSyncStart ⟨none, n⟩).1).1).fetchCount = n + 1 ∧
      (requestSyncStart ⟨none, n⟩).2 = (requestSyncStart (requestSyncStart ⟨none, n⟩).1).2 ∧
      ∀ {α : Type} (fetchResult : Nat → α),
        fetchResult (requestSyncStart ⟨none, n⟩).2 =
          fetchResult (requestSyncStart (requestSyncStart ⟨none, n⟩).1).2 :=
  ⟨rfl, rfl, fun _ => rfl⟩

end ZoteroRoam

namespace ZoteroRoam

/-! ## `ErrorCallout` (src/components/Errors/ErrorCallout.tsx)

`error.response?.status` is modelled as an `Option Nat`; the JavaScript
comparisons `undefined === 404` and `undefined >= 500` are both false,
which the model reflects (`none` fails every status test).
`navigator.onLine` is passed as a parameter.  The component's output is
the `(title, message)` pair rendered into the callout. -/

/-- A JavaScript `Error` as far as `ErrorCallout` inspects it: `name`,
`message`, the `isAxiosError` marker property, and `response?.status`. -/
structure JsError where
  name : String
  message : String
  isAxiosErrorProp : Bool
  responseStatus : Option Nat
  deriving DecidableEq, Repr

/-- `error.name === "AxiosError" || (error as any).isAxiosError`. -/
def isAxiosError (error : JsError) : Bool :=
  error.name == "AxiosError" || error.isAxiosErrorProp

/-- `status >= 500`, where `status` may be `undefined`
(`undefined >= 500` is false). -/
def statusGe500 : Option Nat → Bool
  | some s => 500 ≤ s
  | none => false

/-- The message shown with the "Not Found" title. -/
def msgNotFound : String :=
  "This item could not be found in the external database. It may not have been indexed yet or the identifier may be incorrect."

/-- The message shown with the "Access Denied" title. -/
def msgAccessDenied : String :=
  "Unable to access this resource. You may need to check your API credentials."

/-- The message shown with the "Server Error" title. -/
def msgServerError : String :=
  "The external service is experiencing issues. Please try again later."

/-- The message shown with the "No Internet Connection" title. -/
def msgOffline : String :=
  "Please check your internet connection and try again."

/-- The `(title, message)` pair computed by `ErrorCallout`: defaults to
`(error.name, error.message)`, then for Axios-style errors applies the
status checks in order — 404, 403, ≥ 500, then offline. -/
def errorCallout (error : JsError) (navigatorOnLine : Bool) : String × String :=
  if isAxiosError error then
    let status := error.responseStatus
    if status == some 404 then ("Not Found", msgNotFound)
    else if status == some 403 then ("Access Denied", msgAccessDenied)
    else if statusGe500 status then ("Server Error", msgServerError)
    else if !navigatorOnLine then ("No Internet Connection", msgOffline)
    else (error.name, error.message)
  else (error.name, error.message)

/-- C10: `ErrorCallout`'s title/message follow a fixed precedence.  For an
Axios-style error: status 404 gives "Not Found", 403 gives "Access
Denied", ≥ 500 gives "Server Error" — each regardless of connectivity, so
a 404 while offline still shows "Not Found" — and "No Internet Connection"
appears only when none of those statuses applies and the browser is
offline.  A non-Axios error is displayed as `error.name` / `error.message`
unchanged. -/
theorem errorCallout_precedence (error : JsError) (onLine : Bool) :
    (isAxiosError error = true →
      (error.responseStatus = some 404 →
        errorCallout error onLine = ("Not Found", msgNotFound)) ∧
      (error.responseStatus = some 403 →
        errorCallout error onLine = ("Access Denied", msgAccessDenied)) ∧
      (∀ s, error.responseStatus = some s → 500 ≤ s →
        errorCallout error onLine = ("Server Error", msgServerError)) ∧
      (error.responseStatus ≠ some 404 → error.responseStatus ≠ some 403 →
        statusGe500 error.responseStatus = false → onLine = false →
        errorCallout error onLine = ("No Internet Connection", msgOffline))) ∧
    (isAxiosError error = false →
      errorCallout error onLine = (error.name, error.message)) := by
  constructor
  · intro hax
    refine ⟨?_, ?_, ?_, ?_⟩
    · intro h404
      simp [errorCallout, hax, h404]
    · intro h403
      simp [errorCallout, hax, h403]
    · intro s hs h500
      have hne404 : s ≠ 404 := by omega
      have hne403 : s ≠ 403 := by omega
      simp [errorCallout, hax, hs, hne404, hne403, statusGe500, h500]
    · intro h404 h403 h500 hoff
      have hne404 : (error.responseStatus == some 404) = false := by
        simpa using h404
      have hne403 : (error.responseStatus == some 403) = false := by
        simpa using h403
      simp [errorCallout, hax, hne404, hne403, h500, hoff]
  · intro hax
    simp [errorCallout, hax]

/-- Witness for `errorCallout_precedence`: an Axios 404 received while
offline still shows "Not Found". -/
theorem errorCallout_precedence_witness :
    errorCallout ⟨"AxiosError", "Request failed with status code 404", false, some 404⟩
        false = ("Not Found", msgNotFound) :=
  ((errorCallout_precedence
      ⟨"AxiosError", "Request failed with status code 404", false, some 404⟩
      false).1 (by decide)).1 rfl

end ZoteroRoam
